import Mathlib

/-!
Verification of the artinet router/orchestrator core against its
natural-language specification.

The development shallowly embeds the TypeScript source:

* `model-util.ts` / the documented `react` loop (the variant exercised by the
  repository test-suite: the loop condition checks the abort signal and the
  provider result is assigned to the outer `response` variable);
* `manager.ts` (`Manager.call`) and `manager-util.ts` (`request`);
* `agent-util.ts` (`_session`, `_response`, `callAgent`);
* `tool-util.ts` (`toolError`, `_response`, `callTool`);
* `monitor.ts` (`Monitor` wiring with `.bind(this)` handlers);
* `utils/safeTransport` (`safeClose`);
* `model.ts` (`Model.execute`, `connect` text extraction).

Machine integers do not occur on the verified paths; JS arrays reached only
through rebinding are modelled through an explicit store of arrays so that
frame properties (`Model._history` is never mutated) are about the heap and
not an artifact of functional modelling.
-/

namespace Router

/-! ### Data model (API.Message, requests, responses) -/

/-- Discriminator of callable kinds: `tool_request`/`tool_response` versus
`agent_request`/`agent_response`, and the `kind` field of callables. -/
inductive RKind where
  | tool : RKind
  | agent : RKind
deriving DecidableEq

/-- An `API.Message`: a role and plain text content (request-side messages
always carry string content). -/
structure Message where
  role : String
  content : String
deriving DecidableEq

/-- A `Runtime.ToolRequest`/`Runtime.AgentRequest` as the dispatch layer sees
it: discriminating kind, target uri and the optional id. -/
structure CallRequest where
  kind : RKind
  uri : String
  id : Option String
deriving DecidableEq

/-- A `Runtime.ToolResponse`/`Runtime.AgentResponse` as the reactive loop sees
it: the discriminating kind (used by `Runtime.isToolResponse` /
`Runtime.isAgentResponse` filters in `update`) and the id. -/
structure CallResponse where
  kind : RKind
  id : String
deriving DecidableEq

/-- Content of the final assistant message of a `ConnectResponse`:
a plain string, an object that may carry a `text` field, or absent. -/
inductive Content where
  | str : String → Content
  | obj : Option String → Content
  | null : Content
deriving DecidableEq

/-- The final assistant message of a `ConnectResponse`. -/
structure RespMessage where
  role : String
  content : Content
deriving DecidableEq

/-- `API.ConnectResponse`: the assistant message plus
`options.tools.requests` and `options.agents.requests` (absent arrays are
already normalised to `[]`, as the source does with `?? []`). -/
structure ConnectResponse where
  message : RespMessage
  toolRequests : List CallRequest
  agentRequests : List CallRequest
deriving DecidableEq

/-- `API.ConnectRequest` restricted to the fields the loop manipulates:
the message list and `options.tools.responses` / `options.agents.responses`. -/
structure ConnectRequest where
  identifier : String
  messages : List Message
  toolResponses : List CallResponse
  agentResponses : List CallResponse
deriving DecidableEq

/-- `DEFAULT_ITERATIONS` from `types.ts` (env override not set). -/
def DEFAULT_ITERATIONS : Nat := 10

/-- `DEFAULT_CONCURRENCY` from `types.ts` (env override not set). -/
def DEFAULT_CONCURRENCY : Nat := 10

/-! ### model-util.ts : createCall, update, max_iterations_message -/

/-- `createCall`: concatenates `response.options.tools.requests` and
`response.options.agents.requests` (in that order). -/
def createCall (response : ConnectResponse) : List CallRequest :=
  response.toolRequests ++ response.agentRequests

/-- `update`: appends the tool (resp. agent) responses of `responses` to the
request options and appends `messages` to `request.messages`. -/
def update (request : ConnectRequest) (responses : List CallResponse)
    (messages : List Message) : ConnectRequest :=
  { request with
    toolResponses := request.toolResponses ++
      responses.filter (fun r => decide (r.kind = RKind.tool))
    agentResponses := request.agentResponses ++
      responses.filter (fun r => decide (r.kind = RKind.agent))
    messages := request.messages ++ messages }

/-- The fixed max-iterations system message injected on the final allowed
iteration. -/
def max_iterations_message : Message :=
  { role := "system"
    content := "\nThe assistant has run out of executions for this task and will not be able to continue.\nThe assistant must now formulate a final response to the user summarising what has been achieved so far and what is left to be done.\nIn the final response, the assistant will also provide the user with suggestions for next steps and ask them whether they would like to continue." }

/-! ### The reactive loop `react`

The provider and the dispatcher are strategy parameters exactly as in the
source (`provider : APIProvider`, `call : InvokeCallables`).  The provider is
indexed by the number of provider invocations made so far, the dispatcher by
the loop index; the abort signal is a time-indexed boolean read at each loop
boundary (`!options.abortSignal?.aborted`).  The accumulated `history`
parameter of `react` is a JS array reference; arrays live in an explicit
store and `history = [...history, ...results]` allocates a fresh array and
rebinds the local, leaving the caller's array untouched. -/

/-- A store of JS arrays of callable responses; a reference is an index. -/
structure Store where
  arrays : List (List CallResponse)
deriving DecidableEq

/-- Dereference an array (absent references read as `[]`). -/
def Store.get (s : Store) (ref : Nat) : List CallResponse :=
  s.arrays.getD ref []

/-- Allocate a fresh array holding `v`; returns the new store and the new
reference. -/
def Store.alloc (s : Store) (v : List CallResponse) : Store × Nat :=
  ({ arrays := s.arrays ++ [v] }, s.arrays.length)

/-- Environment of one `react` run: iteration budget (`options.iterations`,
defaulted), abort-signal readings, provider results and dispatcher results. -/
structure ReactEnv where
  iterations : Option Nat
  aborted : Nat → Bool
  provider : Nat → ConnectResponse
  call : Nat → List CallRequest → List CallResponse

/-- The defaulted iteration budget `options.iterations ?? DEFAULT_ITERATIONS`. -/
def ReactEnv.budget (env : ReactEnv) : Nat :=
  env.iterations.getD DEFAULT_ITERATIONS

/-- Mutable state of the `react` loop, plus an execution trace (requests sent
to the provider, request batches handed to `call`, provider-call count). -/
structure LoopState where
  request : ConnectRequest
  results : List CallResponse
  store : Store
  historyRef : Nat
  response : Option ConnectResponse
  calls : Nat
  sent : List ConnectRequest
  batches : List (List CallRequest)

/-- One-to-one embedding of the `for` loop of `react`; `fuel` is
`iterations - i` and `i` the loop index.  The body sends
`update(request, results, i >= iterations - 1 ? [hint] : [])` to the
provider, dispatches the returned calls, breaks on an empty result list and
otherwise rebinds `history` to a freshly allocated array. -/
def reactGo (env : ReactEnv) : Nat → Nat → LoopState → LoopState
  | 0, _, s => s
  | fuel + 1, i, s =>
    if env.aborted i then s
    else
      let maxIteration : List Message :=
        if env.budget ≤ i + 1 then [max_iterations_message] else []
      let updatedRequest := update s.request s.results maxIteration
      let response := env.provider s.calls
      let batch := createCall response
      let results := env.call i batch
      let s' : LoopState :=
        { request := updatedRequest
          results := results
          store := s.store
          historyRef := s.historyRef
          response := some response
          calls := s.calls + 1
          sent := s.sent ++ [updatedRequest]
          batches := s.batches ++ [batch] }
      if results.isEmpty then s'
      else
        let alloc := s.store.alloc (s.store.get s.historyRef ++ results)
        reactGo env fuel (i + 1)
          { s' with store := alloc.1, historyRef := alloc.2 }

/-- Initial loop state: `results = []`, `response = undefined`, history bound
to the caller-supplied array reference. -/
def initState (request : ConnectRequest) (store : Store) (historyRef : Nat) :
    LoopState :=
  { request := request
    results := []
    store := store
    historyRef := historyRef
    response := none
    calls := 0
    sent := []
    batches := [] }

/-- Full trace of one `react` run. -/
def reactTrace (env : ReactEnv) (request : ConnectRequest) (store : Store)
    (historyRef : Nat) : LoopState :=
  reactGo env env.budget 0 (initState request store historyRef)

/-- `react`: returns the last provider response, or throws
`"No response from model"` when `response` is still `undefined`. -/
def react (env : ReactEnv) (request : ConnectRequest) (store : Store)
    (historyRef : Nat) : Except String ConnectResponse :=
  match (reactTrace env request store historyRef).response with
  | none => Except.error "No response from model"
  | some r => Except.ok r

/-! ### model-util.ts : `response` (final-text extraction used by connect) -/

/-- `response`: `typeof content === "string" ? content : content?.text`,
then `if (!content) throw new Error("No content found in response")`.
The falsy check rejects the empty string as well as a missing value. -/
def responseText (response : ConnectResponse) : Except String String :=
  let content : Option String :=
    match response.message.content with
    | Content.str s => some s
    | Content.obj t => t
    | Content.null => none
  match content with
  | some s =>
    if s = "" then Except.error "No content found in response" else Except.ok s
  | none => Except.error "No content found in response"

/-! ### manager.ts / manager-util.ts : the registry and `Manager.call` -/

/-- A registered callable: its `kind` discriminator and the outcome of
`execute` on a request (`Except.error` models a rejected promise). -/
structure Callable where
  kind : RKind
  exec : CallRequest → Except String CallResponse

/-- The registry map `uri -> callable` (insertion-ordered, as a JS `Map`). -/
abbrev Registry := List (String × Callable)

/-- `Map.get` on an association list. -/
def lookupKey {α : Type} (m : List (String × α)) (k : String) : Option α :=
  (m.find? (fun p => decide (p.1 = k))).map (fun p => p.2)

/-- `Map.set` / object property assignment: replace in place or append. -/
def insertKey {α : Type} : List (String × α) → String → α → List (String × α)
  | [], k, v => [(k, v)]
  | (k', v') :: rest, k, v =>
    if k' = k then (k, v) :: rest else (k', v') :: insertKey rest k v

/-- `Map.delete`. -/
def deleteKey {α : Type} : List (String × α) → String → List (String × α)
  | [], _ => []
  | (k', v') :: rest, k =>
    if k' = k then rest else (k', v') :: deleteKey rest k

/-- `manager-util.ts request` composed with `Manager._processRequest`:
absent callable → skip; agent callable with agent request (resp. tool/tool)
→ execute, a thrown error is caught and skipped; kind mismatch → skip. -/
def requestDispatch (callable : Option Callable) (request : CallRequest) :
    Option CallResponse :=
  match callable with
  | none => none
  | some callable =>
    if callable.kind = RKind.agent ∧ request.kind = RKind.agent then
      (callable.exec request).toOption
    else if callable.kind = RKind.tool ∧ request.kind = RKind.tool then
      (callable.exec request).toOption
    else none

/-- `Manager.call`: `[]` on an empty request list, otherwise every request is
scheduled under the `pLimit(min(DEFAULT_CONCURRENCY, n))` semaphore and each
settled task pushes its (defined) result; the concurrency bound is not
observable in the value, so the accumulated list is the per-request dispatch
outcomes. -/
def managerCall (reg : Registry) (requests : List CallRequest) :
    List CallResponse :=
  if requests = [] then []
  else requests.filterMap (fun r => requestDispatch (lookupKey reg r.uri) r)

/-! ### agent-util.ts : `_session`, `_response`, `callAgent` -/

/-- The outgoing A2A message fields `_session` manipulates. -/
structure A2AMessage where
  taskId : Option String
  referenceTaskIds : List String
deriving DecidableEq

/-- `tasks[parentTaskId]`: map uri → child task id. -/
abbrev TaskMap := List (String × String)

/-- The session registry `tasks`: parentTaskId → TaskMap. -/
abbrev Tasks := List (String × TaskMap)

/-- `_session` (documented variant): look up `tasks[parent]?.[uri]`; on a
falsy value (absent or empty string) take `message.taskId ?? fresh-uuid`,
create `tasks[parent]` if absent and store the id; then set
`message.taskId := sessionId` and prepend all current values of
`tasks[parent]` to the caller-supplied `referenceTaskIds`. -/
def _session (uri parentTaskId : String) (tasks : Tasks) (message : A2AMessage)
    (fresh : String) : Tasks × A2AMessage :=
  let stored : Option String :=
    (lookupKey tasks parentTaskId).bind (fun m => lookupKey m uri)
  let storedFalsy : Bool :=
    match stored with
    | none => true
    | some s => decide (s = "")
  let sessionId : String :=
    if storedFalsy then message.taskId.getD fresh
    else stored.getD ""
  let tasks' : Tasks :=
    if storedFalsy then
      insertKey tasks parentTaskId
        (insertKey ((lookupKey tasks parentTaskId).getD []) uri sessionId)
    else tasks
  (tasks',
   { taskId := some sessionId
     referenceTaskIds :=
       ((lookupKey tasks' parentTaskId).getD []).map (fun p => p.2) ++
         message.referenceTaskIds })

/-- A captured JS error (its `message`). -/
structure JsError where
  message : String
deriving DecidableEq

/-- The agent `call` payload: a raw user-text string or a structured message. -/
inductive AgentCall where
  | str : String → AgentCall
  | msg : A2AMessage → AgentCall
deriving DecidableEq

/-- `Runtime.AgentRequest` (uri, optional callerId/id, payload). -/
structure AgentRequest where
  uri : String
  callerId : Option String
  call : AgentCall
  id : Option String
deriving DecidableEq

/-- The `result` field of an `AgentResponse`: the sendMessage success value,
or an error-message string. -/
inductive AgentResult where
  | value : String → AgentResult
  | text : String → AgentResult
deriving DecidableEq

/-- `Runtime.AgentResponse` as `_response` builds it. -/
structure AgentResponse where
  callerId : String
  uri : String
  call : AgentCall
  result : AgentResult
  error : Option JsError
  id : String
deriving DecidableEq

/-- `_response` (agent): `result ?? error?.message ?? "unknown error"`,
`id := request.id ?? uuidv4()`. -/
def agentResponse (request : AgentRequest) (result : Option String)
    (error : Option JsError) (freshId : String) : AgentResponse :=
  { callerId := request.callerId.getD "unknown"
    uri := request.uri
    call := request.call
    result :=
      match result with
      | some v => AgentResult.value v
      | none => AgentResult.text ((error.map (fun e => e.message)).getD "unknown error")
    error := error
    id := request.id.getD freshId }

/-- Outcome of the remote `sendMessage`: resolution with a (possibly
null/undefined) success value, or a rejection. -/
inductive SendOutcome where
  | success : Option String → SendOutcome
  | failure : JsError → SendOutcome

/-- `createMessageSendParams`: a raw string is wrapped as a fresh message
with a text part; a structured message is used directly. -/
def createMessageSendParams (call : AgentCall) : A2AMessage :=
  match call with
  | AgentCall.str _ => { taskId := none, referenceTaskIds := [] }
  | AgentCall.msg m => m

/-- `callAgent`: normalise the payload, run `_session`, send (the rejection
is caught into `_error`), and normalise through `_response`. -/
def callAgent (uri : String) (request : AgentRequest) (parentTaskId : String)
    (tasks : Tasks) (send : A2AMessage → SendOutcome) (fresh freshId : String) :
    Tasks × AgentResponse :=
  let callParams := createMessageSendParams request.call
  let st := _session uri parentTaskId tasks callParams fresh
  match send st.2 with
  | SendOutcome.success v => (st.1, agentResponse request v none freshId)
  | SendOutcome.failure e => (st.1, agentResponse request none (some e) freshId)

/-- `Agent.execute`: reject on a uri mismatch, else delegate to `callAgent`
(which always resolves). -/
def agentExecute (adapterUri : String) (request : AgentRequest)
    (parentTaskId : String) (tasks : Tasks) (send : A2AMessage → SendOutcome)
    (fresh freshId : String) : Except String (Tasks × AgentResponse) :=
  if request.uri ≠ adapterUri then
    Except.error ("Invalid request URI: " ++ request.uri ++ " !== " ++ adapterUri)
  else
    Except.ok (callAgent adapterUri request parentTaskId tasks send fresh freshId)

/-! ### tool-util.ts : `toolError`, `_response`, `callTool` -/

/-- A text content item of a `CallToolResult`. -/
structure TextItem where
  text : String
deriving DecidableEq

/-- An MCP `CallToolResult` (content items). -/
structure CallToolResult where
  content : List TextItem
deriving DecidableEq

/-- `Runtime.ToolRequest` (the `{name, arguments}` payload is opaque). -/
structure ToolRequest where
  uri : String
  callerId : Option String
  call : String
  id : Option String
deriving DecidableEq

/-- `Runtime.ToolResponse` as the tool `_response` builds it. -/
structure ToolResponse where
  callerId : String
  uri : String
  call : String
  result : CallToolResult
  error : Option JsError
  id : String
deriving DecidableEq

/-- `toolError`: the synthetic single-text-part error result describing the
call and the captured error. -/
def toolError (request : ToolRequest) (error : Option JsError) : CallToolResult :=
  { content :=
      [{ text := "[tool:" ++ request.uri ++ "]: error calling tool: \ncall: " ++
          request.call ++ " \nerror: " ++
          ((error.map (fun e => e.message)).getD "undefined") }] }

/-- The raw value `client.callTool` resolves with (validated by
`MCP.CallToolResultSchema.safeParse`, an external schema modelled as a
parameter). -/
abbrev RawResult := String

/-- `_response` (tool): `safeParse(result).data ?? toolError(request, error)`,
`id := request.id ?? uuidv4()`. -/
def toolResponse (uri : String) (request : ToolRequest)
    (safeParse : RawResult → Option CallToolResult)
    (result : Option RawResult) (error : Option JsError) (freshId : String) :
    ToolResponse :=
  { callerId := request.callerId.getD "unknown"
    uri := uri
    call := request.call
    result := (result.bind safeParse).getD (toolError request error)
    error := error
    id := request.id.getD freshId }

/-- Outcome of the MCP `client.callTool` promise. -/
inductive ToolOutcome where
  | resolved : Option RawResult → ToolOutcome
  | rejected : JsError → ToolOutcome

/-- `callTool`: attach the stderr handler, call, catch a rejection into
`_error` (result becomes undefined), detach, normalise via `_response`. -/
def callTool (uri : String) (request : ToolRequest)
    (safeParse : RawResult → Option CallToolResult) (outcome : ToolOutcome)
    (freshId : String) : ToolResponse :=
  match outcome with
  | ToolOutcome.resolved r => toolResponse uri request safeParse r none freshId
  | ToolOutcome.rejected e => toolResponse uri request safeParse none (some e) freshId

/-- `Tool.execute`: reject on a uri mismatch, else delegate to `callTool`
(which always resolves). -/
def toolExecute (adapterUri : String) (request : ToolRequest)
    (safeParse : RawResult → Option CallToolResult) (outcome : ToolOutcome)
    (freshId : String) : Except String ToolResponse :=
  if request.uri ≠ adapterUri then
    Except.error ("Invalid request URI: " ++ request.uri ++ " !== " ++ adapterUri)
  else
    Except.ok (callTool adapterUri request safeParse outcome freshId)

/-! ### monitor.ts : listener wiring

Node `EventEmitter` listeners are compared by function identity; each
evaluation of `this.emitUpdate.bind(this)` allocates a fresh function.
Handler identities are modelled as numbers drawn from a counter. -/

/-- The listener lists of one context publisher (only the monitor-attached
handlers are tracked). -/
structure Publisher where
  updateListeners : List Nat
  errorListeners : List Nat
deriving DecidableEq

/-- Monitor state: the contexts map and the allocation counter for
`.bind(this)` results. -/
structure MonState where
  contexts : List (String × Publisher)
  counter : Nat
deriving DecidableEq

/-- `_registerContext`: `publisher.on("update", this.emitUpdate.bind(this))`
and `publisher.on("error", this.emitError.bind(this))` — two freshly
allocated handlers are appended. -/
def registerContext (pub : Publisher) (counter : Nat) : Publisher × Nat :=
  ({ updateListeners := pub.updateListeners ++ [counter]
     errorListeners := pub.errorListeners ++ [counter + 1] },
   counter + 2)

/-- `_unregisterContext`: `removeListener` is called with two further
freshly bound handlers; `removeListener` erases a listener only when the very
same function is attached. -/
def unregisterContext (pub : Publisher) (counter : Nat) : Publisher × Nat :=
  ({ updateListeners := pub.updateListeners.erase counter
     errorListeners := pub.errorListeners.erase (counter + 1) },
   counter + 2)

/-- `Monitor.create`: construct a context (fresh publisher) and wire it. -/
def monitorCreate (m : MonState) (id : String) : MonState :=
  let wired := registerContext { updateListeners := [], errorListeners := [] } m.counter
  { contexts := insertKey m.contexts id wired.1, counter := wired.2 }

/-- `Monitor.delete`: unwire the stored context if present, then remove it
from the map.  The second component is the publisher of the removed context
as the caller still observes it. -/
def monitorDelete (m : MonState) (id : String) : MonState × Option Publisher :=
  match lookupKey m.contexts id with
  | some pub =>
    let unwired := unregisterContext pub m.counter
    ({ contexts := deleteKey m.contexts id, counter := unwired.2 },
     some unwired.1)
  | none => (m, none)

/-- `Monitor.set`: unwire a previously stored context with the same id, wire
the new context, store it.  The second component is the publisher of the
replaced context as the caller still observes it. -/
def monitorSet (m : MonState) (id : String) (newPub : Publisher) :
    MonState × Option Publisher :=
  match lookupKey m.contexts id with
  | some oldPub =>
    let unwired := unregisterContext oldPub m.counter
    let wired := registerContext newPub unwired.2
    ({ contexts := insertKey m.contexts id wired.1, counter := wired.2 },
     some unwired.1)
  | none =>
    let wired := registerContext newPub m.counter
    ({ contexts := insertKey m.contexts id wired.1, counter := wired.2 }, none)

/-! ### utils/safeTransport : `safeClose` -/

/-- The cleanup steps of `safeClose`, in source order. -/
inductive Step where
  | removeStdinListeners : Step
  | removeStdoutListeners : Step
  | removeStderrListeners : Step
  | destroyStdin : Step
  | destroyStdout : Step
  | destroyStderr : Step
  | unpipeStderr : Step
  | transportClose : Step
  | clientClose : Step
  | killPid : Step
  | transportStderrRemove : Step
deriving DecidableEq

/-- Failure behaviour of the environment: which cleanup step throws
(for `transportClose`/`clientClose`: whose promise rejects). -/
structure StepThrows where
  removeStdinListeners : Bool
  removeStdoutListeners : Bool
  removeStderrListeners : Bool
  destroyStdin : Bool
  destroyStdout : Bool
  destroyStderr : Bool
  unpipeStderr : Bool
  transportClose : Bool
  clientClose : Bool
  killPid : Bool
  transportStderrRemove : Bool
deriving DecidableEq

/-- Run a step list sequentially: a step whose failure is individually
swallowed (`.catch(_ => {})`) always continues; any other throwing step is
caught by the single surrounding `try/catch` (so nothing escapes) but the
remaining steps are skipped.  Returns the attempted steps and whether an
error escaped to the caller. -/
def runSteps : List (Step × Bool × Bool) → List Step × Bool
  | [] => ([], false)
  | (st, thr, swallowed) :: rest =>
    if thr ∧ ¬swallowed then ([st], false)
    else
      let tail := runSteps rest
      (st :: tail.1, tail.2)

/-- The step list of `safeClose`: the seven stream-cleanup steps are guarded
by `_process` being present, `transport.close()`/`client.close()` carry their
own `.catch`, `process.kill(pid, "SIGKILL")` is guarded by a known pid. -/
def safeCloseSteps (childPresent : Bool) (pid : Option Nat) (b : StepThrows) :
    List (Step × Bool × Bool) :=
  (if childPresent then
    [(Step.removeStdinListeners, b.removeStdinListeners, false),
     (Step.removeStdoutListeners, b.removeStdoutListeners, false),
     (Step.removeStderrListeners, b.removeStderrListeners, false),
     (Step.destroyStdin, b.destroyStdin, false),
     (Step.destroyStdout, b.destroyStdout, false),
     (Step.destroyStderr, b.destroyStderr, false),
     (Step.unpipeStderr, b.unpipeStderr, false)]
   else []) ++
  [(Step.transportClose, b.transportClose, true),
   (Step.clientClose, b.clientClose, true)] ++
  (match pid with
   | some _ => [(Step.killPid, b.killPid, false)]
   | none => []) ++
  [(Step.transportStderrRemove, b.transportStderrRemove, false)]

/-- `safeClose`: run the cleanup sequence under one `try/catch`. -/
def safeClose (childPresent : Bool) (pid : Option Nat) (b : StepThrows) :
    List Step × Bool :=
  runSteps (safeCloseSteps childPresent pid b)

/-! ### model.ts : `Model.execute` -/

/-- The `Model` fields relevant to the frame claim: the heap of response
arrays and the reference held in `this._history`. -/
structure ModelState where
  store : Store
  historyRef : Nat

/-- `Model.execute`: forwards to `react(request, provider, call,
this._history, options)` and returns its result; `this._history` is passed by
reference and never reassigned. -/
def modelExecute (m : ModelState) (env : ReactEnv) (request : ConnectRequest) :
    Except String ConnectResponse × ModelState :=
  (react env request m.store m.historyRef,
   { store := (reactTrace env request m.store m.historyRef).store
     historyRef := m.historyRef })

/-! ### Concrete fixtures used by witnesses and counterexamples -/

/-- A provider response with no service requests (a final turn). -/
def respFinal : ConnectResponse :=
  { message := { role := "assistant", content := Content.str "done" }
    toolRequests := []
    agentRequests := [] }

/-- A provider response carrying one tool request. -/
def respCalling : ConnectResponse :=
  { message := { role := "assistant", content := Content.str "calling" }
    toolRequests := [{ kind := RKind.tool, uri := "u0", id := some "r1" }]
    agentRequests := [] }

/-- A dispatched tool response. -/
def respT : CallResponse := { kind := RKind.tool, id := "r1" }

/-- A minimal initial request. -/
def reqW : ConnectRequest :=
  { identifier := "test-model"
    messages := [{ role := "user", content := "hi" }]
    toolResponses := []
    agentResponses := [] }

/-- A store holding one (empty) history array at reference 0. -/
def storeW : Store := { arrays := [[]] }

/-- C1 witness environment: budget 2, never aborted, provider immediately
final. -/
def envFinal : ReactEnv :=
  { iterations := some 2
    aborted := fun _ => false
    provider := fun _ => respFinal
    call := fun _ _ => [] }

/-- C1 counterexample environment: budget 1 but the signal is already
aborted before the loop starts. -/
def envPreAborted : ReactEnv :=
  { iterations := some 1
    aborted := fun _ => true
    provider := fun _ => respFinal
    call := fun _ _ => [] }

/-- C3 witness environment: the signal fires after 1 completed iteration. -/
def envAbortAfterOne : ReactEnv :=
  { iterations := some 5
    aborted := fun j => decide (2 ≤ j)
    provider := fun _ => respCalling
    call := fun _ _ => [respT] }

/-- C4 environment: budget 3, never aborted, the provider emits a call on
every turn and every dispatch produces a response. -/
def envAlwaysCalling : ReactEnv :=
  { iterations := some 3
    aborted := fun _ => false
    provider := fun _ => respCalling
    call := fun _ _ => [respT] }

/-- `childId tasks p u` : the stored child task id `tasks[p]?.[u]`. -/
def childId (tasks : Tasks) (parentTaskId uri : String) : Option String :=
  (lookupKey tasks parentTaskId).bind (fun m => lookupKey m uri)

/-- A callable agent whose `execute` resolves, echoing the request id. -/
def agentOk : Callable :=
  { kind := RKind.agent
    exec := fun r => Except.ok { kind := RKind.agent, id := r.id.getD "gen" } }

/-- A callable tool whose `execute` rejects. -/
def toolThrows : Callable :=
  { kind := RKind.tool
    exec := fun _ => Except.error "boom" }

/-- A two-entry registry. -/
def regW : Registry := [("a", agentOk), ("t", toolThrows)]

/-- An agent request for the registered agent. -/
def reqAgentA : CallRequest := { kind := RKind.agent, uri := "a", id := some "r1" }

/-- A request whose uri is not registered. -/
def reqGhost : CallRequest := { kind := RKind.tool, uri := "ghost", id := some "r2" }

/-- A tool request aimed at the agent (kind mismatch). -/
def reqMismatch : CallRequest := { kind := RKind.tool, uri := "a", id := some "r3" }

/-- A tool request whose execution rejects. -/
def reqToolT : CallRequest := { kind := RKind.tool, uri := "t", id := some "r4" }

/-- The witness request batch. -/
def requestsW : List CallRequest := [reqAgentA, reqGhost, reqMismatch, reqToolT]

/-- Session registry after a first call that carried an (empty-string)
`message.taskId`. -/
def tasksAfterEmpty : Tasks :=
  (_session "a" "P" [] { taskId := some "", referenceTaskIds := [] } "f1").1

/-- A concrete agent request matching the adapter uri "a". -/
def areqW : AgentRequest :=
  { uri := "a", callerId := none, call := AgentCall.str "hello", id := some "r1" }

/-- A concrete tool request matching the adapter uri "t". -/
def treqW : ToolRequest :=
  { uri := "t", callerId := none, call := "c", id := some "r2" }

/-- A rejecting remote send. -/
def sendBoom : A2AMessage → SendOutcome :=
  fun _ => SendOutcome.failure { message := "boom" }

/-- A provider response whose assistant message content is the empty
string. -/
def respEmptyContent : ConnectResponse :=
  { message := { role := "assistant", content := Content.str "" }
    toolRequests := []
    agentRequests := [] }

/-- Step behaviour: only `destroyStdin` throws. -/
def throwsOnDestroyStdin : StepThrows :=
  { removeStdinListeners := false
    removeStdoutListeners := false
    removeStderrListeners := false
    destroyStdin := true
    destroyStdout := false
    destroyStderr := false
    unpipeStderr := false
    transportClose := false
    clientClose := false
    killPid := false
    transportStderrRemove := false }

/-- Step behaviour: only the transport-close promise rejects. -/
def throwsOnTransportClose : StepThrows :=
  { removeStdinListeners := false
    removeStdoutListeners := false
    removeStderrListeners := false
    destroyStdin := false
    destroyStdout := false
    destroyStderr := false
    unpipeStderr := false
    transportClose := true
    clientClose := false
    killPid := false
    transportStderrRemove := false }

/-! ### Loop lemmas -/

theorem reactGo_calls_le (env : ReactEnv) :
    ∀ (fuel i : Nat) (s : LoopState), (reactGo env fuel i s).calls ≤ s.calls + fuel := by
  intro fuel
  induction fuel with
  | zero => intro i s; simp [reactGo]
  | succ n ih =>
    intro i s
    rw [reactGo]
    by_cases h : env.aborted i = true
    · simp [h]
    · simp only [h, if_neg, Bool.false_eq_true, reduceIte]
      split
      · simp
      · refine le_trans (ih (i + 1) _) ?_
        simp only [LoopState.calls]
        omega

theorem reactGo_calls_mono (env : ReactEnv) :
    ∀ (fuel i : Nat) (s : LoopState), s.calls ≤ (reactGo env fuel i s).calls := by
  intro fuel
  induction fuel with
  | zero => intro i s; simp [reactGo]
  | succ n ih =>
    intro i s
    rw [reactGo]
    by_cases h : env.aborted i = true
    · simp [h]
    · simp only [h, if_neg, Bool.false_eq_true, reduceIte]
      split
      · simp
      · refine le_trans ?_ (ih (i + 1) _)
        simp

theorem reactGo_response_spec (env : ReactEnv) :
    ∀ (fuel i : Nat) (s : LoopState),
      ((reactGo env fuel i s).calls = s.calls ∧
        (reactGo env fuel i s).response = s.response) ∨
      (1 ≤ (reactGo env fuel i s).calls ∧
        (reactGo env fuel i s).response =
          some (env.provider ((reactGo env fuel i s).calls - 1))) := by
  intro fuel
  induction fuel with
  | zero => intro i s; simp [reactGo]
  | succ n ih =>
    intro i s
    rw [reactGo]
    by_cases h : env.aborted i = true
    · simp [h]
    · simp only [h, if_neg, Bool.false_eq_true, reduceIte]
      split
      · right; simp
      · rcases ih (i + 1)
          { request := update s.request s.results
              (if env.budget ≤ i + 1 then [max_iterations_message] else [])
            results := env.call i (createCall (env.provider s.calls))
            store := (s.store.alloc (s.store.get s.historyRef ++
              env.call i (createCall (env.provider s.calls)))).1
            historyRef := (s.store.alloc (s.store.get s.historyRef ++
              env.call i (createCall (env.provider s.calls)))).2
            response := some (env.provider s.calls)
            calls := s.calls + 1
            sent := s.sent ++ [update s.request s.results
              (if env.budget ≤ i + 1 then [max_iterations_message] else [])]
            batches := s.batches ++ [createCall (env.provider s.calls)] } with
          ⟨hc, hr⟩ | ⟨hc, hr⟩
        · right
          constructor
          · rw [hc]; simp
          · rw [hr, hc]; simp
        · right; exact ⟨hc, hr⟩

theorem reactGo_abort_bound (env : ReactEnv) (m : Nat)
    (habort : ∀ j, m ≤ j → env.aborted j = true) :
    ∀ (fuel i : Nat) (s : LoopState), i ≤ m → s.calls = i →
      (reactGo env fuel i s).calls ≤ m := by
  intro fuel
  induction fuel with
  | zero => intro i s hi hc; simp [reactGo, hc, hi]
  | succ n ih =>
    intro i s hi hc
    rw [reactGo]
    by_cases h : env.aborted i = true
    · simp [h, hc, hi]
    · have hlt : i < m := by
        rcases Nat.lt_or_ge i m with h1 | h1
        · exact h1
        · exact absurd (habort i h1) h
      simp only [h, if_neg, Bool.false_eq_true, reduceIte]
      split
      · simp [hc]; omega
      · exact ih (i + 1) _ (by omega) (by simp [hc])

theorem reactGo_store_frame (env : ReactEnv) :
    ∀ (fuel i : Nat) (s : LoopState) (j : Nat), j < s.store.arrays.length →
      (reactGo env fuel i s).store.arrays.getD j [] = s.store.arrays.getD j [] ∧
      s.store.arrays.length ≤ (reactGo env fuel i s).store.arrays.length := by
  intro fuel
  induction fuel with
  | zero => intro i s j hj; simp [reactGo]
  | succ n ih =>
    intro i s j hj
    rw [reactGo]
    by_cases h : env.aborted i = true
    · simp [h]
    · simp only [h, if_neg, Bool.false_eq_true, reduceIte]
      split
      · simp
      · have hstep := ih (i + 1)
          { request := update s.request s.results
              (if env.budget ≤ i + 1 then [max_iterations_message] else [])
            results := env.call i (createCall (env.provider s.calls))
            store := (s.store.alloc (s.store.get s.historyRef ++
              env.call i (createCall (env.provider s.calls)))).1
            historyRef := (s.store.alloc (s.store.get s.historyRef ++
              env.call i (createCall (env.provider s.calls)))).2
            response := some (env.provider s.calls)
            calls := s.calls + 1
            sent := s.sent ++ [update s.request s.results
              (if env.budget ≤ i + 1 then [max_iterations_message] else [])]
            batches := s.batches ++ [createCall (env.provider s.calls)] }
          j (by simp [Store.alloc]; omega)
        rcases hstep with ⟨hget, hlen⟩
        constructor
        · rw [hget]
          simp only [Store.alloc]
          exact List.getD_append _ _ _ _ hj
        · refine le_trans ?_ hlen
          simp [Store.alloc]

theorem reactTrace_calls_zero_iff (env : ReactEnv) (request : ConnectRequest)
    (store : Store) (href : Nat) :
    (reactTrace env request store href).calls = 0 ↔
      (env.budget = 0 ∨ env.aborted 0 = true) := by
  constructor
  · intro h
    by_contra hcon
    push_neg at hcon
    obtain ⟨hb, ha⟩ := hcon
    obtain ⟨n, hn⟩ : ∃ n, env.budget = n + 1 := ⟨env.budget - 1, by omega⟩
    unfold reactTrace at h
    rw [hn, reactGo] at h
    simp only [ha, if_neg, Bool.false_eq_true, reduceIte] at h
    split at h
    · simp [initState] at h
    · have hmono := reactGo_calls_mono env n 1
        { request := update (initState request store href).request
            (initState request store href).results
            (if env.budget ≤ 0 + 1 then [max_iterations_message] else [])
          results := env.call 0 (createCall (env.provider
            (initState request store href).calls))
          store := ((initState request store href).store.alloc
            ((initState request store href).store.get
              (initState request store href).historyRef ++
              env.call 0 (createCall (env.provider
                (initState request store href).calls)))).1
          historyRef := ((initState request store href).store.alloc
            ((initState request store href).store.get
              (initState request store href).historyRef ++
              env.call 0 (createCall (env.provider
                (initState request store href).calls)))).2
          response := some (env.provider (initState request store href).calls)
          calls := (initState request store href).calls + 1
          sent := (initState request store href).sent ++
            [update (initState request store href).request
              (initState request store href).results
              (if env.budget ≤ 0 + 1 then [max_iterations_message] else [])]
          batches := (initState request store href).batches ++
            [createCall (env.provider (initState request store href).calls)] }
      rw [h] at hmono
      simp [initState] at hmono
  · intro h
    rcases h with hb | ha
    · unfold reactTrace
      rw [hb]
      rfl
    · unfold reactTrace
      cases hbud : env.budget with
      | zero => rfl
      | succ n =>
        rw [reactGo]
        simp [ha, initState]

/-- C1 (amended).  For the reactive loop `react`: the error
"No response from model" is thrown if and only if the provider was never
invoked, which happens exactly when the iterations budget is 0 or the abort
signal was already set before the first iteration; whenever the budget is at
least 1 and the signal is not initially aborted, the loop resolves with the
response produced by the last provider invocation. -/
theorem react_no_response_error_iff (env : ReactEnv) (request : ConnectRequest)
    (store : Store) (href : Nat) :
    (react env request store href = Except.error "No response from model" ↔
      (env.budget = 0 ∨ env.aborted 0 = true))
  ∧ ((reactTrace env request store href).calls = 0 ↔
      (env.budget = 0 ∨ env.aborted 0 = true))
  ∧ (1 ≤ env.budget → env.aborted 0 = false →
      react env request store href =
        Except.ok (env.provider ((reactTrace env request store href).calls - 1)) ∧
      1 ≤ (reactTrace env request store href).calls) := by
  have hspec :
      ((reactTrace env request store href).calls =
          (initState request store href).calls ∧
        (reactTrace env request store href).response =
          (initState request store href).response) ∨
      (1 ≤ (reactTrace env request store href).calls ∧
        (reactTrace env request store href).response =
          some (env.provider ((reactTrace env request store href).calls - 1))) :=
    reactGo_response_spec env env.budget 0 (initState request store href)
  have hcalls0 := reactTrace_calls_zero_iff env request store href
  have hresp_iff : (reactTrace env request store href).response = none ↔
      (reactTrace env request store href).calls = 0 := by
    rcases hspec with ⟨hc, hr⟩ | ⟨hc, hr⟩
    · rw [hr, hc]
      simp [initState]
    · constructor
      · intro hn
        rw [hr] at hn
        cases hn
      · intro h0
        omega
  have herr : react env request store href =
      Except.error "No response from model" ↔
      (reactTrace env request store href).response = none := by
    unfold react
    cases hm : (reactTrace env request store href).response with
    | none => simp
    | some r => simp
  refine ⟨by rw [herr, hresp_iff, hcalls0], hcalls0, ?_⟩
  intro hb ha
  have hc0 : ¬(reactTrace env request store href).calls = 0 := by
    rw [hcalls0]
    push_neg
    exact ⟨by omega, by simp [ha]⟩
  rcases hspec with ⟨hc, hr⟩ | ⟨hc, hr⟩
  · exact absurd hc hc0
  · constructor
    · unfold react
      rw [hr]
    · exact hc

/-- C1 witness: a budget-2 run whose provider immediately returns a final
response makes exactly one provider call and `react` resolves with that
response. -/
theorem react_no_response_error_iff_witness :
    react envFinal reqW storeW 0 = Except.ok (envFinal.provider 0) ∧
    (reactTrace envFinal reqW storeW 0).calls = 1 := by
  have h := (react_no_response_error_iff envFinal reqW storeW 0).2.2
    (by decide) rfl
  have hc : (reactTrace envFinal reqW storeW 0).calls = 1 := rfl
  exact ⟨by rw [h.1, hc], hc⟩

/-- C1 counterexample: with iterations budget 1 (not 0) but an abort signal
that is already set, the loop still throws "No response from model" —
refuting the claim that this error occurs if and only if the budget was 0. -/
theorem react_error_despite_budget_counterexample :
    react envPreAborted reqW storeW 0 =
      Except.error "No response from model" ∧
    envPreAborted.budget = 1 := ⟨rfl, rfl⟩

/-- C3 (as stated).  If the abort signal is set from check `K+1` onwards
(i.e. it fired after at most `K+1` provider invocations, `K < B`), the loop
makes at most `K+1` provider invocations in total: after cancellation is
observed no further provider call happens. -/
theorem react_cancellation_bound (env : ReactEnv) (request : ConnectRequest)
    (store : Store) (href : Nat) (K : Nat) (_hKB : K < env.budget)
    (habort : ∀ j, K + 1 ≤ j → env.aborted j = true) :
    (reactTrace env request store href).calls ≤ K + 1 :=
  reactGo_abort_bound env (K + 1) habort env.budget 0
    (initState request store href) (by omega) rfl

/-- C3 witness: with budget 5 and a signal firing after iteration 2 starts,
the loop stops with exactly 2 provider calls (≤ K+1 for K = 1). -/
theorem react_cancellation_bound_witness :
    (reactTrace envAbortAfterOne reqW storeW 0).calls ≤ 2 ∧
    (reactTrace envAbortAfterOne reqW storeW 0).calls = 2 ∧
    (1 : Nat) < envAbortAfterOne.budget :=
  ⟨react_cancellation_bound envAbortAfterOne reqW storeW 0 1 (by decide)
      (fun j hj => by simp [envAbortAfterOne]; omega),
    rfl, by decide⟩

theorem reactGo_no_break (env : ReactEnv)
    (hA : ∀ j, env.aborted j = false)
    (hNE : ∀ i k, env.call i (createCall (env.provider k)) ≠ []) :
    ∀ (fuel i : Nat) (s : LoopState),
      (reactGo env fuel i s).calls = s.calls + fuel ∧
      (reactGo env fuel i s).batches.length = s.batches.length + fuel ∧
      (reactGo env fuel i s).sent.length = s.sent.length + fuel := by
  intro fuel
  induction fuel with
  | zero => intro i s; simp [reactGo]
  | succ n ih =>
    intro i s
    rw [reactGo]
    simp only [hA i, Bool.false_eq_true, reduceIte]
    have hie : (env.call i (createCall (env.provider s.calls))).isEmpty = false := by
      cases hc : env.call i (createCall (env.provider s.calls)) with
      | nil => exact absurd hc (hNE i s.calls)
      | cons a l => rfl
    rw [hie]
    simp only [Bool.false_eq_true, reduceIte]
    have hrec := ih (i + 1)
      { request := update s.request s.results
          (if env.budget ≤ i + 1 then [max_iterations_message] else [])
        results := env.call i (createCall (env.provider s.calls))
        store := (s.store.alloc (s.store.get s.historyRef ++
          env.call i (createCall (env.provider s.calls)))).1
        historyRef := (s.store.alloc (s.store.get s.historyRef ++
          env.call i (createCall (env.provider s.calls)))).2
        response := some (env.provider s.calls)
        calls := s.calls + 1
        sent := s.sent ++ [update s.request s.results
          (if env.budget ≤ i + 1 then [max_iterations_message] else [])]
        batches := s.batches ++ [createCall (env.provider s.calls)] }
    obtain ⟨h1, h2, h3⟩ := hrec
    refine ⟨?_, ?_, ?_⟩
    · rw [h1]; simp; omega
    · rw [h2]; simp; omega
    · rw [h3]; simp; omega

theorem reactGo_batches_nonempty (env : ReactEnv)
    (hP : ∀ k, createCall (env.provider k) ≠ []) :
    ∀ (fuel i : Nat) (s : LoopState),
      ∀ b ∈ (reactGo env fuel i s).batches, b ∈ s.batches ∨ b ≠ [] := by
  intro fuel
  induction fuel with
  | zero => intro i s b hb; rw [reactGo] at hb; exact Or.inl hb
  | succ n ih =>
    intro i s b hb
    rw [reactGo] at hb
    by_cases h : env.aborted i = true
    · simp only [h, reduceIte] at hb
      exact Or.inl hb
    · simp only [h, if_neg, Bool.false_eq_true, reduceIte] at hb
      split at hb
      · simp only [List.mem_append, List.mem_singleton] at hb
        rcases hb with hb | hb
        · exact Or.inl hb
        · exact Or.inr (hb ▸ hP s.calls)
      · rcases ih (i + 1) _ b hb with hmem | hne
        · simp only [List.mem_append, List.mem_singleton] at hmem
          rcases hmem with hmem | hmem
          · exact Or.inl hmem
          · exact Or.inr (hmem ▸ hP s.calls)
        · exact Or.inr hne

theorem reactGo_last_hint (env : ReactEnv)
    (hA : ∀ j, env.aborted j = false)
    (hNE : ∀ i k, env.call i (createCall (env.provider k)) ≠ []) :
    ∀ (fuel i : Nat) (s : LoopState), 1 ≤ fuel → i + fuel = env.budget →
      ∃ r, (reactGo env fuel i s).sent.getLast? = some r ∧
        r.messages.getLast? = some max_iterations_message := by
  intro fuel
  induction fuel with
  | zero => intro i s h1 _; omega
  | succ n ih =>
    intro i s _ hib
    rw [reactGo]
    simp only [hA i, Bool.false_eq_true, reduceIte]
    have hie : (env.call i (createCall (env.provider s.calls))).isEmpty = false := by
      cases hc : env.call i (createCall (env.provider s.calls)) with
      | nil => exact absurd hc (hNE i s.calls)
      | cons a l => rfl
    rw [hie]
    simp only [Bool.false_eq_true, reduceIte]
    cases n with
    | zero =>
      have hcond : env.budget ≤ i + 1 := by omega
      rw [reactGo]
      refine ⟨update s.request s.results [max_iterations_message], ?_, ?_⟩
      · simp only [hcond, reduceIte, if_pos]
        exact List.getLast?_concat _
      · simp only [update]
        exact List.getLast?_concat _
    | succ m =>
      exact ih (i + 1) _ (by omega) (by omega)

/-- C4 (amended).  With iteration budget `B`, a never-firing abort signal, a
provider that emits at least one service request on every turn, and a
dispatcher that resolves every such batch with at least one response: the
provider is invoked exactly `B` times (and never more than `B` in general),
exactly `B` call batches are handed to `Manager.call` and each of them is
non-empty — in particular the requests contained in the `B`-th (final)
response ARE dispatched — and the request of the final provider invocation
carries the fixed max-iterations system message as the last entry of its
message list. -/
theorem react_budget_trace (env : ReactEnv) (request : ConnectRequest)
    (store : Store) (href : Nat)
    (hA : ∀ j, env.aborted j = false)
    (hP : ∀ k, createCall (env.provider k) ≠ [])
    (hNE : ∀ i k, env.call i (createCall (env.provider k)) ≠ []) :
    (reactTrace env request store href).calls ≤ env.budget
  ∧ (reactTrace env request store href).calls = env.budget
  ∧ (reactTrace env request store href).batches.length = env.budget
  ∧ (∀ b ∈ (reactTrace env request store href).batches, b ≠ [])
  ∧ (1 ≤ env.budget →
      ∃ r, (reactTrace env request store href).sent.getLast? = some r ∧
        r.messages.getLast? = some max_iterations_message) := by
  have hle := reactGo_calls_le env env.budget 0 (initState request store href)
  have hnb := reactGo_no_break env hA hNE env.budget 0 (initState request store href)
  have hmem := reactGo_batches_nonempty env hP env.budget 0 (initState request store href)
  refine ⟨by simpa [initState] using hle, ?_, ?_, ?_, ?_⟩
  · have := hnb.1
    simpa [initState] using this
  · have := hnb.2.1
    simpa [initState] using this
  · intro b hb
    rcases hmem b hb with hm | hne
    · simp [initState] at hm
    · exact hne
  · intro hbud
    exact reactGo_last_hint env hA hNE env.budget 0
      (initState request store href) hbud (by omega)

/-- C4 witness: budget 3, always-calling provider — exactly 3 provider
calls, 3 non-empty dispatched batches, and the 3rd request ends with the
max-iterations system message. -/
theorem react_budget_trace_witness :
    (reactTrace envAlwaysCalling reqW storeW 0).calls = envAlwaysCalling.budget ∧
    (reactTrace envAlwaysCalling reqW storeW 0).batches.length = 3 ∧
    (∃ r, (reactTrace envAlwaysCalling reqW storeW 0).sent.getLast? = some r ∧
      r.messages.getLast? = some max_iterations_message) := by
  have h := react_budget_trace envAlwaysCalling reqW storeW 0
    (fun _ => rfl) (fun _ => (by decide : createCall respCalling ≠ []))
    (fun _ _ => (by decide : ([respT] : List CallResponse) ≠ []))
  exact ⟨h.2.1, h.2.2.1.trans rfl, h.2.2.2.2 (by decide)⟩

/-- C4 counterexample: with budget `B = 3` and a provider emitting a service
call on every turn, all 3 responses — including the 3rd and final one — have
their requests dispatched, so there are 3 dispatched call batches, not
`B - 1 = 2` as the claim states. -/
theorem react_final_iteration_dispatch_counterexample :
    ((reactTrace envAlwaysCalling reqW storeW 0).batches.filter
        (fun b => decide (b ≠ []))).length = 3 ∧
    envAlwaysCalling.budget = 3 ∧ (3 : Nat) ≠ 3 - 1 :=
  ⟨rfl, rfl, by decide⟩

/-- C10 (as stated).  `Model.execute` (hence `connect`) leaves the model's
`_history` array untouched: `react` only rebinds its local `history`
parameter to freshly allocated arrays, so after the run the model still
holds the same reference and that array has the same contents. -/
theorem model_execute_history_frame (m : ModelState) (env : ReactEnv)
    (request : ConnectRequest) (href : m.historyRef < m.store.arrays.length) :
    (modelExecute m env request).2.historyRef = m.historyRef ∧
    (modelExecute m env request).2.store.get m.historyRef =
      m.store.get m.historyRef := by
  refine ⟨rfl, ?_⟩
  have h := reactGo_store_frame env env.budget 0
    (initState request m.store m.historyRef) m.historyRef
    (by simpa [initState] using href)
  simpa [modelExecute, Store.get, reactTrace, initState] using h.1

/-- C10 witness: a 3-iteration run that accumulates responses grows the heap
(new arrays are allocated by the local rebinding) yet the model's history
array at its original reference is unchanged. -/
theorem model_execute_history_frame_witness :
    (modelExecute { store := storeW, historyRef := 0 } envAlwaysCalling reqW).2.store.get 0 =
      storeW.get 0 ∧
    storeW.arrays.length <
      (modelExecute { store := storeW, historyRef := 0 } envAlwaysCalling reqW).2.store.arrays.length := by
  refine ⟨(model_execute_history_frame { store := storeW, historyRef := 0 }
    envAlwaysCalling reqW (by decide)).2, ?_⟩
  decide

theorem filterMap_length_countP {α β : Type} (f : α → Option β) :
    ∀ l : List α, (l.filterMap f).length = l.countP (fun a => (f a).isSome) := by
  intro l
  induction l with
  | nil => rfl
  | cons a t ih =>
    rw [List.filterMap_cons, List.countP_cons]
    cases hf : f a with
    | none => simp [hf, ih]
    | some b => simp [hf, ih]

theorem requestDispatch_kind_eq (c : Callable) (r : CallRequest)
    (h : c.kind = r.kind) :
    requestDispatch (some c) r = (c.exec r).toOption := by
  cases hc : c.kind <;> cases hr : r.kind <;>
    simp [requestDispatch, hc, hr] <;> simp [hc, hr] at h

theorem requestDispatch_kind_ne (c : Callable) (r : CallRequest)
    (h : c.kind ≠ r.kind) :
    requestDispatch (some c) r = none := by
  cases hc : c.kind <;> cases hr : r.kind <;>
    simp [requestDispatch, hc, hr] <;> simp [hc, hr] at h

/-- C2 (as stated, functional content).  `Manager.call` returns `[]` on an
empty batch; otherwise it settles every scheduled per-request task and the
result contains exactly one response per request whose uri resolves to a
registered callable of matching kind and whose execute resolved — requests
with an unknown uri, a mismatched kind or a rejected execute contribute no
response. -/
theorem manager_call_spec (reg : Registry) (requests : List CallRequest) :
    managerCall reg [] = []
  ∧ (managerCall reg requests).length =
      requests.countP (fun r => (requestDispatch (lookupKey reg r.uri) r).isSome)
  ∧ (∀ r ∈ requests, ∀ c, lookupKey reg r.uri = some c → c.kind = r.kind →
      ∀ resp, c.exec r = Except.ok resp → resp ∈ managerCall reg requests)
  ∧ (∀ r : CallRequest,
      (requestDispatch (lookupKey reg r.uri) r).isSome = true ↔
        ∃ c, lookupKey reg r.uri = some c ∧ c.kind = r.kind ∧
          ∃ resp, c.exec r = Except.ok resp) := by
  refine ⟨rfl, ?_, ?_, ?_⟩
  · cases hreq : requests with
    | nil => rfl
    | cons a t =>
      rw [managerCall, if_neg (by simp)]
      exact filterMap_length_countP _ _
  · intro r hr c hc hk resp hresp
    have hne : requests ≠ [] := by
      intro h
      rw [h] at hr
      cases hr
    rw [managerCall, if_neg hne]
    refine List.mem_filterMap.mpr ⟨r, hr, ?_⟩
    rw [hc, requestDispatch_kind_eq c r hk, hresp]
    rfl
  · intro r
    constructor
    · intro h
      cases hl : lookupKey reg r.uri with
      | none => rw [hl] at h; simp [requestDispatch] at h
      | some c =>
        rw [hl] at h
        by_cases hk : c.kind = r.kind
        · rw [requestDispatch_kind_eq c r hk] at h
          cases he : c.exec r with
          | error e => rw [he] at h; simp [Except.toOption] at h
          | ok resp => exact ⟨c, rfl, hk, resp, he⟩
        · rw [requestDispatch_kind_ne c r hk] at h
          cases h
    · rintro ⟨c, hc, hk, resp, hresp⟩
      rw [hc, requestDispatch_kind_eq c r hk, hresp]
      rfl

/-- C2 witness: a batch of four requests — one good agent request, one with
an unknown uri, one with a mismatched kind, one whose execute rejects —
yields exactly the one response of the good request, with its id. -/
theorem manager_call_spec_witness :
    ({ kind := RKind.agent, id := "r1" } : CallResponse) ∈
      managerCall regW requestsW ∧
    (managerCall regW requestsW).length = 1 ∧
    requestsW.length = 4 := by
  have h := manager_call_spec regW requestsW
  refine ⟨h.2.2.1 reqAgentA (by decide) agentOk rfl rfl _ rfl, ?_, rfl⟩
  rw [h.2.1]
  decide

theorem lookupKey_insertKey_self {α : Type} (m : List (String × α))
    (k : String) (v : α) : lookupKey (insertKey m k v) k = some v := by
  induction m with
  | nil => simp [insertKey, lookupKey, List.find?]
  | cons p t ih =>
    obtain ⟨k', v'⟩ := p
    by_cases h : k' = k
    · simp [insertKey, h, lookupKey, List.find?]
    · rw [insertKey, if_neg h]
      rw [lookupKey] at ih ⊢
      simp only [List.find?]
      have : (decide (k' = k)) = false := by simp [h]
      rw [this]
      exact ih

/-- C5 (amended).  `_session`: the per-parent map is created if absent; the
first call for `(P,U)` stores `message.taskId ?? fresh` as the child id and
sends it; any later call finding a non-empty stored id sends exactly that id
and leaves the registry unchanged (an empty-string stored id is treated as
absent by the falsy check and replaced); and every value currently stored in
`tasks[P]` appears in the outgoing `referenceTaskIds`. -/
theorem session_stickiness (uri parentTaskId : String) (tasks : Tasks)
    (message : A2AMessage) (fresh : String) :
    lookupKey (_session uri parentTaskId tasks message fresh).1 parentTaskId ≠ none
  ∧ (childId tasks parentTaskId uri = none →
      childId (_session uri parentTaskId tasks message fresh).1 parentTaskId uri =
        some (message.taskId.getD fresh) ∧
      (_session uri parentTaskId tasks message fresh).2.taskId =
        some (message.taskId.getD fresh))
  ∧ (∀ storedId, childId tasks parentTaskId uri = some storedId → storedId ≠ "" →
      (_session uri parentTaskId tasks message fresh).2.taskId = some storedId ∧
      childId (_session uri parentTaskId tasks message fresh).1 parentTaskId uri =
        some storedId ∧
      (_session uri parentTaskId tasks message fresh).1 = tasks)
  ∧ (∀ v ∈ ((lookupKey (_session uri parentTaskId tasks message fresh).1
        parentTaskId).getD []).map (fun p => p.2),
      v ∈ (_session uri parentTaskId tasks message fresh).2.referenceTaskIds) := by
  refine ⟨?_, ?_, ?_, ?_⟩
  · cases hstored : childId tasks parentTaskId uri with
    | none =>
      rw [childId] at hstored
      simp [_session, hstored, lookupKey_insertKey_self]
    | some s =>
      rw [childId] at hstored
      by_cases hse : s = ""
      · simp [_session, hstored, hse, lookupKey_insertKey_self]
      · obtain ⟨pm, hpm, hpu⟩ := Option.bind_eq_some.mp hstored
        simp [_session, hse, hpm, hpu]
  · intro h
    rw [childId] at h
    constructor
    · simp [_session, childId, h, lookupKey_insertKey_self]
    · simp [_session, h]
  · intro storedId hst hne
    rw [childId] at hst
    refine ⟨?_, ?_, ?_⟩
    · simp [_session, hst, hne]
    · simp only [childId]
      simp [_session, hst, hne]
    · simp [_session, hst, hne]
  · intro v hv
    simp only [_session] at hv
    simp only [_session, List.mem_append]
    exact Or.inl hv

/-- C5 witness: with `tasks = [("P", [("a","T")])]` a further call for the
same parent and uri sends `taskId = "T"`, leaves the registry unchanged and
includes "T" in the reference task ids. -/
theorem session_stickiness_witness :
    (_session "a" "P" [("P", [("a", "T")])]
        { taskId := none, referenceTaskIds := [] } "f").2.taskId = some "T" ∧
    (_session "a" "P" [("P", [("a", "T")])]
        { taskId := none, referenceTaskIds := [] } "f").1 = [("P", [("a", "T")])] ∧
    "T" ∈ (_session "a" "P" [("P", [("a", "T")])]
        { taskId := none, referenceTaskIds := [] } "f").2.referenceTaskIds := by
  have h := session_stickiness "a" "P" [("P", [("a", "T")])]
    { taskId := none, referenceTaskIds := [] } "f"
  obtain ⟨h1, h2, h3⟩ := h.2.2.1 "T" rfl (by decide)
  exact ⟨h1, h3, h.2.2.2 "T" (by decide)⟩

/-- C5 counterexample: when the caller supplies an empty-string
`message.taskId` on the first call, the stored child id is `""`; the next
call for the same `(P,U)` treats the stored id as absent (JS falsy check)
and sends a fresh id instead of the stored one — refuting "every subsequent
call with the same (P,U) sets the outgoing message.taskId to that same
stored id". -/
theorem session_empty_taskid_counterexample :
    childId tasksAfterEmpty "P" "a" = some "" ∧
    (_session "a" "P" tasksAfterEmpty
        { taskId := none, referenceTaskIds := [] } "f2").2.taskId = some "f2" ∧
    (some "f2" : Option String) ≠ some "" := by decide

/-- C6 (as stated).  For a request whose uri matches the adapter, both
adapters' `execute` always resolve; the response id is the request id when
one is carried; a rejected remote call is captured in the `error` field with
the agent result set to the error-message string, resp. the tool result set
to the synthetic single-text-part error `CallToolResult`; and an agent
remote that resolves with null/undefined and no error yields the result
"unknown error". -/
theorem adapter_execute_normalizes
    (adapterUri toolUri parentTaskId fresh freshId freshId2 : String)
    (areq : AgentRequest) (tasks : Tasks) (send : A2AMessage → SendOutcome)
    (treq : ToolRequest) (safeParse : RawResult → Option CallToolResult)
    (outcome : ToolOutcome) (e : JsError)
    (ha : areq.uri = adapterUri) (ht : treq.uri = toolUri) :
    (∃ x, agentExecute adapterUri areq parentTaskId tasks send fresh freshId =
      Except.ok x)
  ∧ (∃ r, toolExecute toolUri treq safeParse outcome freshId2 = Except.ok r)
  ∧ (∀ i, areq.id = some i →
      (callAgent adapterUri areq parentTaskId tasks send fresh freshId).2.id = i)
  ∧ (∀ i, treq.id = some i →
      (callTool toolUri treq safeParse outcome freshId2).id = i)
  ∧ ((callAgent adapterUri areq parentTaskId tasks
        (fun _ => SendOutcome.failure e) fresh freshId).2.error = some e ∧
      (callAgent adapterUri areq parentTaskId tasks
        (fun _ => SendOutcome.failure e) fresh freshId).2.result =
        AgentResult.text e.message)
  ∧ ((callAgent adapterUri areq parentTaskId tasks
        (fun _ => SendOutcome.success none) fresh freshId).2.result =
        AgentResult.text "unknown error" ∧
      (callAgent adapterUri areq parentTaskId tasks
        (fun _ => SendOutcome.success none) fresh freshId).2.error = none)
  ∧ ((callTool toolUri treq safeParse (ToolOutcome.rejected e) freshId2).error =
        some e ∧
      (callTool toolUri treq safeParse (ToolOutcome.rejected e) freshId2).result =
        toolError treq (some e) ∧
      (toolError treq (some e)).content.length = 1) := by
  refine ⟨?_, ?_, ?_, ?_, ?_, ?_, ?_⟩
  · rw [agentExecute, if_neg (by simp [ha])]
    exact ⟨_, rfl⟩
  · rw [toolExecute, if_neg (by simp [ht])]
    exact ⟨_, rfl⟩
  · intro i hi
    rw [callAgent]
    cases send (_session adapterUri parentTaskId tasks
        (createMessageSendParams areq.call) fresh).2 with
    | success v => simp [agentResponse, hi]
    | failure err => simp [agentResponse, hi]
  · intro i hi
    cases outcome with
    | resolved r => simp [callTool, toolResponse, hi]
    | rejected err => simp [callTool, toolResponse, hi]
  · exact ⟨rfl, rfl⟩
  · exact ⟨rfl, rfl⟩
  · exact ⟨rfl, rfl, rfl⟩

/-- C6 witness: a concrete matching agent request with a rejecting remote
and a concrete matching tool request with a rejecting MCP call. -/
theorem adapter_execute_normalizes_witness :
    (∃ x, agentExecute "a" areqW "P" [] sendBoom "f" "g" = Except.ok x) ∧
    (callAgent "a" areqW "P" []
        (fun _ => SendOutcome.failure { message := "boom" }) "f" "g").2.result =
      AgentResult.text "boom" ∧
    (callTool "t" treqW (fun _ => none)
        (ToolOutcome.rejected { message := "bang" }) "g2").id = "r2" := by
  have h := adapter_execute_normalizes "a" "t" "P" "f" "g" "g2" areqW [] sendBoom
    treqW (fun _ => none) (ToolOutcome.rejected { message := "bang" })
    { message := "boom" } rfl rfl
  exact ⟨h.1, h.2.2.2.2.1.2, h.2.2.2.1 "r2" rfl⟩

/-- C7 (evaluating the code at the failing input).  `_unregisterContext`
passes `this.emitUpdate.bind(this)` — a freshly allocated function — to
`removeListener`, so unwiring removes nothing: after `create` + `delete`
(resp. `set` on the same id) the removed/replaced context publisher still
carries the originally wired update and error listeners and keeps relaying
its events to the Monitor. -/
theorem monitor_unwire_is_noop :
    (monitorDelete (monitorCreate { contexts := [], counter := 0 } "ctx") "ctx").2 =
      some { updateListeners := [0], errorListeners := [1] } ∧
    (monitorSet (monitorCreate { contexts := [], counter := 0 } "ctx") "ctx"
        { updateListeners := [], errorListeners := [] }).2 =
      some { updateListeners := [0], errorListeners := [1] } := by
  constructor
  · rfl
  · rfl

/-- C8 (amended).  The final-text extraction returns the message content
when it is a non-empty string, returns the `text` field when the content is
an object carrying a non-empty `text`, and otherwise — including the
empty-string cases rejected by the falsy check — throws
"No content found in response". -/
theorem response_text_extraction (r : ConnectResponse) :
    (∀ s, r.message.content = Content.str s → s ≠ "" →
      responseText r = Except.ok s)
  ∧ (∀ t, r.message.content = Content.obj (some t) → t ≠ "" →
      responseText r = Except.ok t)
  ∧ ((r.message.content = Content.str "" ∨
      r.message.content = Content.obj (some "") ∨
      r.message.content = Content.obj none ∨
      r.message.content = Content.null) →
      responseText r = Except.error "No content found in response") := by
  refine ⟨?_, ?_, ?_⟩
  · intro s hs hne
    rw [responseText]
    simp [hs, hne]
  · intro t htc hne
    rw [responseText]
    simp [htc, hne]
  · intro hcase
    rcases hcase with hc | hc | hc | hc <;>
      · rw [responseText]
        simp [hc]

/-- C8 witness: a string-content response round-trips its content. -/
theorem response_text_extraction_witness :
    responseText respFinal = Except.ok "done" :=
  (response_text_extraction respFinal).1 "done" rfl (by decide)

/-- C8 counterexample: when the assistant message content is the empty
string, the extraction throws instead of returning it — refuting "returns
the message content when it is a string". -/
theorem response_text_empty_string_counterexample :
    respEmptyContent.message.content = Content.str "" ∧
    responseText respEmptyContent = Except.error "No content found in response" :=
  ⟨rfl, rfl⟩

theorem runSteps_no_escape :
    ∀ l : List (Step × Bool × Bool), (runSteps l).2 = false := by
  intro l
  induction l with
  | nil => rfl
  | cons a t ih =>
    obtain ⟨st, thr, sw⟩ := a
    rw [runSteps]
    split
    · rfl
    · simpa using ih

/-- C9 (amended).  `safeClose` never throws to its caller; failures of
`transport.close` and `client.close` are individually swallowed and do not
skip later steps; and provided the stream-cleanup steps do not throw, a
known child pid receives SIGKILL strictly after `transport.close`.  (A
synchronous failure in a stream-cleanup step aborts the remaining steps —
see the counterexample.) -/
theorem safe_close_spec (childPresent : Bool) (pid : Option Nat) (b : StepThrows)
    (hs : b.removeStdinListeners = false ∧ b.removeStdoutListeners = false ∧
      b.removeStderrListeners = false ∧ b.destroyStdin = false ∧
      b.destroyStdout = false ∧ b.destroyStderr = false ∧
      b.unpipeStderr = false) :
    (safeClose childPresent pid b).2 = false
  ∧ Step.transportClose ∈ (safeClose childPresent pid b).1
  ∧ Step.clientClose ∈ (safeClose childPresent pid b).1
  ∧ (∀ p, pid = some p →
      Step.killPid ∈ (safeClose childPresent pid b).1 ∧
      (safeClose childPresent pid b).1.indexOf Step.transportClose <
        (safeClose childPresent pid b).1.indexOf Step.killPid) := by
  obtain ⟨h1, h2, h3, h4, h5, h6, h7⟩ := hs
  refine ⟨runSteps_no_escape _, ?_⟩
  cases childPresent <;> cases pid <;>
    by_cases hk : b.killPid = true <;>
    by_cases hr : b.transportStderrRemove = true <;>
    simp_all [safeClose, safeCloseSteps, runSteps]

/-- C9 witness: with only the transport-close promise rejecting and a known
pid, the kill step is still reached and happens after transport close. -/
theorem safe_close_spec_witness :
    Step.killPid ∈ (safeClose true (some 7) throwsOnTransportClose).1 ∧
    Step.clientClose ∈ (safeClose true (some 7) throwsOnTransportClose).1 ∧
    (safeClose true (some 7) throwsOnTransportClose).2 = false := by
  have h := safe_close_spec true (some 7) throwsOnTransportClose
    ⟨rfl, rfl, rfl, rfl, rfl, rfl, rfl⟩
  exact ⟨(h.2.2.2 7 rfl).1, h.2.2.1, h.1⟩

/-- C9 counterexample: if `destroyStdin` throws, the single surrounding
`try/catch` swallows the error but all later steps — including
`transport.close` and the SIGKILL of the known pid — are skipped, refuting
"failure of one step does not skip later steps" and leaving an orphaned
subprocess. -/
theorem safe_close_skips_kill_counterexample :
    Step.killPid ∉ (safeClose true (some 1) throwsOnDestroyStdin).1 ∧
    Step.transportClose ∉ (safeClose true (some 1) throwsOnDestroyStdin).1 ∧
    (safeClose true (some 1) throwsOnDestroyStdin).2 = false := by decide

end Router
